import Mathlib

/-!
Verification of switch-wifi-bridge, the client side (`cmd/client.go`).

A shallow embedding of the peer registry (`switchMACs`), of the registration
handlers (`registerSwitch`, `handleRegister`), of the packet classification
loop of `client`, of `channelHopper` and of `freqToChan`, followed by the
properties established about them.

Conventions of the embedding:
* a Go map (the built-in `map[string]bool` and `syncmap.Map`) is an association
  list read by its first binding for a key; `Store` and `Delete` never leave a
  second binding behind, so every map built from the empty one has unique keys.
  The functions are defined on every list and the theorems hold for every list;
* bytes and the 16-bit radio frequency are natural numbers, with the
  wrap-around of `uint16` written out;
* the external actions of the classification loop (channel send and close,
  `changeChannel`, `forwardPacket`) are recorded in order as a list of `Effect`;
* a Go run-time panic of an index or slice expression is a `Fault`.
Logging is not modelled.
-/

namespace SwitchBridge

/-! ## Go maps -/

/-- A Go map with string keys: `map[string]V` or `syncmap.Map`. -/
structure StrMap (V : Type) where
  entries : List (String × V)
deriving DecidableEq, Repr

namespace StrMap

variable {V : Type}

/-- The empty map, as `make(map[string]bool)` or a fresh `syncmap.Map`. -/
def empty : StrMap V := ⟨[]⟩

/-- First binding of `k` in an entry list. -/
def find (k : String) : List (String × V) → Option V
  | [] => none
  | (k', v) :: rest => if k' = k then some v else find k rest

/-- Value of `m.Load(k)`: `some v` for `(v, true)`, `none` for `(nil, false)`. -/
def Load (m : StrMap V) (k : String) : Option V := find k m.entries

/-- Map after `m.Delete(k)`. -/
def Delete (m : StrMap V) (k : String) : StrMap V :=
  ⟨m.entries.filter (fun e => decide (e.1 ≠ k))⟩

/-- Map after `m.Store(k, v)` (also `m[k] = v`). -/
def Store (m : StrMap V) (k : String) (v : V) : StrMap V :=
  ⟨(k, v) :: (m.Delete k).entries⟩

/-- Result of `m.LoadOrStore(k, v)`: the map afterwards, the value now bound to
`k`, and `loaded` (true when `k` was already present). -/
def LoadOrStore (m : StrMap V) (k : String) (v : V) : StrMap V × V × Bool :=
  match m.Load k with
  | some actual => (m, actual, true)
  | none => (m.Store k v, v, false)

/-- Walk of `Range` over an entry list: `f` gets the key, the value and the
state its closure captures, and returns the new state with its Go result
(`false` stops the walk). -/
def rangeEntries {σ : Type} (f : String → V → σ → σ × Bool) : List (String × V) → σ → σ
  | [], s => s
  | (k, v) :: rest, s =>
    match f k v s with
    | (s', true) => rangeEntries f rest s'
    | (s', false) => s'

/-- State after `m.Range(f)`, for a callback `f` that does not write to `m`. -/
def Range {σ : Type} (m : StrMap V) (f : String → V → σ → σ × Bool) (s : σ) : σ :=
  rangeEntries f m.entries s

end StrMap

/-! ## Link-layer values -/

/-- The table `hexDigit` of Go's `net` package. -/
def hexDigit (n : Nat) : Char :=
  ['0', '1', '2', '3', '4', '5', '6', '7', '8', '9', 'a', 'b', 'c', 'd', 'e', 'f'].getD n '0'

/-- Characters of `net.HardwareAddr.String` for a non-empty address. -/
def hardwareAddrChars : List Nat → List Char
  | [] => []
  | [b] => [hexDigit (b / 16), hexDigit (b % 16)]
  | b :: rest => hexDigit (b / 16) :: hexDigit (b % 16) :: ':' :: hardwareAddrChars rest

/-- Go's `net.HardwareAddr.String()`: `""` for the empty address, otherwise the
bytes in lower-case hexadecimal separated by colons. -/
def HardwareAddr.String (a : List Nat) : String := String.mk (hardwareAddrChars a)

/-- The fields of `layers.Dot11` the client reads. -/
structure Dot11 where
  Address1 : List Nat
  Address2 : List Nat
deriving DecidableEq, Repr

/-- A Go byte slice: `arr` is the backing array from the first element of the
slice up to its capacity, `len` the length of the slice (`len <= cap`; the
expressions below are defined for every pair). -/
structure ByteSlice where
  arr : List Nat
  len : Nat
deriving DecidableEq, Repr

deriving instance DecidableEq for Except

/-- A run-time panic of an index or slice expression. -/
inductive Fault where
  | indexOutOfRange
  | sliceBoundsOutOfRange
deriving DecidableEq, Repr

namespace ByteSlice

/-- Capacity `cap(s)`. -/
def cap (s : ByteSlice) : Nat := s.arr.length

/-- Index expression `s[i]`: panics unless `i < len(s)`. -/
def index (s : ByteSlice) (i : Nat) : Except Fault Nat :=
  if i < s.len then .ok (s.arr.getD i 0) else .error .indexOutOfRange

/-- Slice expression `s[lo:hi]`: panics unless `lo <= hi <= cap(s)`; the
elements of the result, `hi - lo` of them starting at `lo`. -/
def slice (s : ByteSlice) (lo hi : Nat) : Except Fault (List Nat) :=
  if lo ≤ hi ∧ hi ≤ s.cap then .ok ((s.arr.drop lo).take (hi - lo))
  else .error .sliceBoundsOutOfRange

/-- The bytes of the slice, `s[0], ..., s[len(s)-1]`. -/
def bytes (s : ByteSlice) : List Nat := s.arr.take s.len

/-- The slice of length and capacity `bs.length` holding `bs`. -/
def ofBytes (bs : List Nat) : ByteSlice := ⟨bs, bs.length⟩

end ByteSlice

/-- A captured packet as the loop of `client` sees it: the decoded layers it
asks for and the raw data it forwards. -/
structure Packet where
  /-- Field `ChannelFrequency` of the RadioTap layer (a `uint16`), when present. -/
  radioTap : Option Nat
  /-- The Dot11 layer, when present. -/
  dot11 : Option Dot11
  /-- Field `Contents` of the Dot11MgmtAction layer, when present. -/
  mgmtAction : Option ByteSlice
  /-- Result of `packet.Data()`. -/
  data : List Nat
deriving DecidableEq, Repr

/-! ## `freqToChan` -/

/-- Function `freqToChan`: `int((freq - 2407) / 5)` over `uint16`. -/
def freqToChan (freq : Nat) : Nat :=
  ((freq % 65536 + 65536 - 2407) % 65536) / 5

/-! ## Registry handlers -/

/-- Function `registerSwitch`: `LoadOrStore(dot11.Address2.String(), true)`; returns the
registry afterwards and `ok` (true when the address was already present). -/
def registerSwitch (switchMACs : StrMap Bool) (dot11 : Dot11) : StrMap Bool × Bool :=
  let r := switchMACs.LoadOrStore (HardwareAddr.String dot11.Address2) true
  (r.1, r.2.2)

/-- First loop of `handleRegister`: `remoteMACs[mac] = true` for each address. -/
def buildRemoteMACs (registration : List String) : StrMap Bool :=
  registration.foldl (fun m mac => m.Store mac true) StrMap.empty

/-- Callback handed to `switchMACs.Range` in `handleRegister`. The state it
updates is `globalMACList`, the map its `Delete` is called on. -/
def deregisterStale {G : Type} (remoteMACs : StrMap Bool) (mac : String) (isLocal : Bool)
    (globalMACList : StrMap G) : StrMap G × Bool :=
  match remoteMACs.Load mac with
  | some _ => (globalMACList, true)
  | none => if !isLocal then (globalMACList.Delete mac, true) else (globalMACList, true)

/-- Last loop of `handleRegister`: store each address not yet present as remote. -/
def registerRemote (switchMACs : StrMap Bool) (registration : List String) : StrMap Bool :=
  registration.foldl
    (fun m mac => match m.Load mac with
      | some _ => m
      | none => m.Store mac false)
    switchMACs

/-- Function `handleRegister` on the package state it touches: the registry `switchMACs`
and `globalMACList`, a second package-level map declared outside `client.go`
(its value type `G` is left open). Returns both maps afterwards. -/
def handleRegister {G : Type} (switchMACs : StrMap Bool) (globalMACList : StrMap G)
    (registration : List String) : StrMap Bool × StrMap G :=
  let remoteMACs := buildRemoteMACs registration
  let globalMACList1 := switchMACs.Range (deregisterStale remoteMACs) globalMACList
  (registerRemote switchMACs registration, globalMACList1)

/-- Addresses held with Remote origin. -/
def remoteAddrs (m : StrMap Bool) : Set String := {a | m.Load a = some false}

/-- Addresses held with Local origin. -/
def localAddrs (m : StrMap Bool) : Set String := {a | m.Load a = some true}

/-! ## The classification loop of `client` -/

/-- External actions of the loop, in the order the code performs them. -/
inductive Effect where
  /-- Send on `stopHop`: the stop signal, received by the hop loop. -/
  | stopHopSend
  /-- Call `close(stopHop)`. -/
  | stopHopClose
  /-- Call `changeChannel(iface, channel)`. -/
  | changeChannel (channel : Nat)
  /-- Call `forwardPacket(send, packet)`, with the data of the packet. -/
  | forwardPacket (data : List Nat)
deriving DecidableEq, Repr

/-- The variables the loop reads and writes: the registry and the flag `noHop`. -/
structure ClientState where
  switchMACs : StrMap Bool
  noHop : Bool
deriving DecidableEq, Repr

/-- The block the loop runs in both registering branches: `registerSwitch`, and
on a first registration while `noHop` is false the channel lock (stop signal,
close, `changeChannel` to `freqToChan` of the capture frequency, `noHop = true`). -/
def registerAndLock (s : ClientState) (dot11 : Dot11) (freq : Nat) :
    ClientState × List Effect :=
  let r := registerSwitch s.switchMACs dot11
  if !r.2 then
    if !s.noHop then
      (⟨r.1, true⟩,
        [Effect.stopHopSend, Effect.stopHopClose, Effect.changeChannel (freqToChan freq)])
    else (⟨r.1, s.noHop⟩, [])
  else (⟨r.1, s.noHop⟩, [])

/-- Third branch of the loop body: the scan for vendor action frames. -/
def scanAction (s : ClientState) (p : Packet) (dot11 : Dot11) (freq : Nat) :
    Except Fault (ClientState × List Effect) :=
  match p.mgmtAction with
  | none => .ok (s, [])
  | some contents =>
    match contents.index 0 with
    | .error f => .error f
    | .ok b0 =>
      if b0 = 0x7f then
        match contents.slice 1 4 with
        | .error f => .error f
        | .ok oui =>
          if oui = [0x00, 0x22, 0xaa] then
            let r := registerAndLock s dot11 freq
            .ok (r.1, r.2 ++ [Effect.forwardPacket p.data])
          else .ok (s, [])
      else .ok (s, [])

/-- One iteration of the packet loop of `client`: the state afterwards with the
actions performed, or the panic that ends the process. A packet without a
RadioTap layer or without a Dot11 layer is skipped: each of those paths of the
source only logs and continues. -/
def classify (s : ClientState) (p : Packet) : Except Fault (ClientState × List Effect) :=
  match p.radioTap with
  | none => .ok (s, [])
  | some freq =>
    match p.dot11 with
    | none => .ok (s, [])
    | some dot11 =>
      match s.switchMACs.Load (HardwareAddr.String dot11.Address2) with
      | some _ => .ok (s, [Effect.forwardPacket p.data])
      | none =>
        match s.switchMACs.Load (HardwareAddr.String dot11.Address1) with
        | some _ =>
          if dot11.Address2.length ≠ 0 then
            let r := registerAndLock s dot11 freq
            .ok (r.1, r.2 ++ [Effect.forwardPacket p.data])
          else .ok (s, [Effect.forwardPacket p.data])
        | none => scanAction s p dot11 freq

/-- What a run of the loop leaves behind: the final state, the actions in
order, and the panic that ended it, if any. -/
structure Run where
  state : ClientState
  effects : List Effect
  fault : Option Fault
deriving DecidableEq, Repr

/-- The packet loop of `client` over the packets the capture delivers. -/
def clientLoop : ClientState → List Packet → Run
  | s, [] => ⟨s, [], none⟩
  | s, p :: rest =>
    match classify s p with
    | .error f => ⟨s, [], some f⟩
    | .ok (s1, es) =>
      let r := clientLoop s1 rest
      ⟨r.state, es ++ r.effects, r.fault⟩

/-- Number of stop signals sent to the hop loop. -/
def stopCount (es : List Effect) : Nat := es.count Effect.stopHopSend

/-- The channels `changeChannel` was called with, in order. -/
def channelsSet : List Effect → List Nat
  | [] => []
  | Effect.changeChannel c :: rest => c :: channelsSet rest
  | _ :: rest => channelsSet rest

/-- The packets handed to `forwardPacket`, in order. -/
def forwarded : List Effect → List (List Nat)
  | [] => []
  | Effect.forwardPacket d :: rest => d :: forwarded rest
  | _ :: rest => forwarded rest

/-- The actions of a run other than the forwarding of packets: what the loop
does to the hop loop and to the radio channel. -/
def lockActions : List Effect → List Effect
  | [] => []
  | Effect.forwardPacket _ :: rest => lockActions rest
  | e :: rest => e :: lockActions rest

/-- The channel-lock action for a capture frequency: the stop signal to the hop
loop, the close of `stopHop`, then `changeChannel` with `freqToChan freq`. -/
def lockAction (freq : Nat) : List Effect :=
  [Effect.stopHopSend, Effect.stopHopClose, Effect.changeChannel (freqToChan freq)]

/-! ## `channelHopper` -/

/-- State of `channelHopper`: the counter `i`, whether it has returned, and the
channels it has passed to `changeChannel` so far. -/
structure HopperState where
  i : Nat
  returned : Bool
  channels : List Nat
deriving DecidableEq, Repr

/-- One iteration of the loop of `channelHopper`; `abortSeen` tells whether the
`select` at its top receives from `abort`. -/
def hopperStep (abortSeen : Bool) (h : HopperState) : HopperState :=
  if h.returned then h
  else if abortSeen then { h with returned := true }
  else
    let i1 := h.i + 1
    { i := if i1 > 11 then 1 else i1, returned := false, channels := h.channels ++ [h.i] }

/-- State of `channelHopper` after `n` iterations of its loop, `abort k` telling
what the `select` of iteration `k` (counted from 0) observes. -/
def channelHopper (abort : Nat → Bool) : Nat → HopperState
  | 0 => ⟨1, false, []⟩
  | n + 1 => hopperStep (abort n) (channelHopper abort n)

/-- Run of `n` consecutive calls `registerSwitch(dot11)`: the registry after the last
one and the values returned, in order. -/
def registerSwitchTimes (switchMACs : StrMap Bool) (dot11 : Dot11) :
    Nat → StrMap Bool × List Bool
  | 0 => (switchMACs, [])
  | n + 1 =>
    let r := registerSwitch switchMACs dot11
    let rest := registerSwitchTimes r.1 dot11 n
    (rest.1, r.2 :: rest.2)

/-! ## Packets of the capture and outcomes of an iteration -/

/-- A packet as the gopacket source delivers it to the loop. A Dot11MgmtAction
layer exists only for a non-empty Dot11 payload, and that payload is cut out of
the packet data before the 4-byte frame check sequence, which stays behind it
in the backing array: `1 <= len(Contents)` and `len(Contents) + 4 <= cap(Contents)`. -/
def Packet.fromCapture (p : Packet) : Prop :=
  match p.mgmtAction with
  | none => True
  | some c => 1 ≤ c.len ∧ c.len + 4 ≤ c.cap

instance (p : Packet) : Decidable p.fromCapture := by
  unfold Packet.fromCapture
  split <;> infer_instance

/-- Outcome "drop": the iteration changes nothing and performs no action. -/
def isDrop (s : ClientState) (r : ClientState × List Effect) : Prop :=
  r = (s, [])

/-- Outcome "forward": the state is unchanged and the one action is the
forwarding of the packet. -/
def isForward (s : ClientState) (p : Packet) (r : ClientState × List Effect) : Prop :=
  r = (s, [Effect.forwardPacket p.data])

/-- Outcome "register, maybe lock, and forward": the sender was not in the
registry and is stored with Local origin, the channel lock runs when `noHop`
was false, `noHop` is true afterwards, and the packet is forwarded last. -/
def isRegisterForward (s : ClientState) (p : Packet) (r : ClientState × List Effect) :
    Prop :=
  match p.radioTap, p.dot11 with
  | some freq, some d =>
    s.switchMACs.Load (HardwareAddr.String d.Address2) = none
    ∧ r = (⟨s.switchMACs.Store (HardwareAddr.String d.Address2) true, true⟩,
        (if s.noHop then [] else lockAction freq) ++ [Effect.forwardPacket p.data])
  | _, _ => False

instance (s : ClientState) (r : ClientState × List Effect) : Decidable (isDrop s r) := by
  unfold isDrop; infer_instance

instance (s : ClientState) (p : Packet) (r : ClientState × List Effect) :
    Decidable (isForward s p r) := by
  unfold isForward; infer_instance

instance (s : ClientState) (p : Packet) (r : ClientState × List Effect) :
    Decidable (isRegisterForward s p r) := by
  unfold isRegisterForward
  split <;> infer_instance

/-! ## Lemmas on maps -/

namespace StrMap

variable {V : Type}

theorem find_filter_ne (k k' : String) (l : List (String × V)) :
    find k (l.filter (fun e => decide (e.1 ≠ k'))) = if k = k' then none else find k l := by
  induction l with
  | nil => simp [find]
  | cons e rest ih =>
    obtain ⟨a, v⟩ := e
    by_cases h1 : a = k'
    · subst h1
      by_cases h2 : k = a
      · subst h2; simpa [List.filter, find] using ih
      · have h3 : ¬ a = k := fun h => h2 h.symm
        simpa [List.filter, find, h3, h2] using ih
    · by_cases h2 : k = k'
      · subst h2
        simpa [List.filter, h1, find] using ih
      · by_cases h3 : a = k
        · simp [List.filter, h1, find, h3, h2]
        · simpa [List.filter, h1, find, h3, h2] using ih

theorem Load_Delete (m : StrMap V) (k k' : String) :
    (m.Delete k').Load k = if k = k' then none else m.Load k := by
  exact find_filter_ne k k' m.entries

theorem Load_Store (m : StrMap V) (k k' : String) (v : V) :
    (m.Store k' v).Load k = if k = k' then some v else m.Load k := by
  have hd : (m.Store k' v).Load k = if k' = k then some v else (m.Delete k').Load k := rfl
  rw [hd, Load_Delete]
  by_cases h : k = k'
  · subst h; simp
  · have h' : ¬ k' = k := fun e => h e.symm
    simp [h, h']

end StrMap

/-! ## Lemmas on the registry handlers -/

theorem handleRegister_fst {G : Type} (m : StrMap Bool) (g : StrMap G) (S : List String) :
    (handleRegister m g S).1 = registerRemote m S := rfl

theorem Load_registerRemote (S : List String) (m : StrMap Bool) (a : String) :
    (registerRemote m S).Load a =
      match m.Load a with
      | some v => some v
      | none => if a ∈ S then some false else none := by
  induction S generalizing m with
  | nil => cases h : m.Load a <;> simp [registerRemote, h]
  | cons x rest ih =>
    have step : registerRemote m (x :: rest) =
        registerRemote (match m.Load x with | some _ => m | none => m.Store x false) rest := by
      simp [registerRemote]
    rw [step]
    cases hx : m.Load x with
    | some w =>
      simp only [ih]
      cases ha : m.Load a with
      | some v => simp
      | none =>
        have hne : a ≠ x := by
          intro e; subst e; simp [ha] at hx
        simp [hne]
    | none =>
      simp only [ih, StrMap.Load_Store]
      by_cases hax : a = x
      · subst hax; simp [hx]
      · cases ha : m.Load a <;> simp [hax]

theorem registerSwitch_absent (m : StrMap Bool) (d : Dot11)
    (h : m.Load (HardwareAddr.String d.Address2) = none) :
    registerSwitch m d = (m.Store (HardwareAddr.String d.Address2) true, false) := by
  simp [registerSwitch, StrMap.LoadOrStore, h]

theorem registerSwitch_present (m : StrMap Bool) (d : Dot11) (v : Bool)
    (h : m.Load (HardwareAddr.String d.Address2) = some v) :
    registerSwitch m d = (m, true) := by
  simp [registerSwitch, StrMap.LoadOrStore, h]

theorem registerSwitchTimes_present (m : StrMap Bool) (d : Dot11) (v : Bool)
    (h : m.Load (HardwareAddr.String d.Address2) = some v) (n : Nat) :
    registerSwitchTimes m d n = (m, List.replicate n true) := by
  induction n with
  | zero => rfl
  | succ n ih => simp [registerSwitchTimes, registerSwitch_present m d v h, ih, List.replicate_succ]

/-- What `handleRegister` leaves in the registry with Remote origin: every
address that was Remote before, and the listed addresses that were absent. -/
theorem remoteAddrs_handleRegister {G : Type} (m : StrMap Bool) (g : StrMap G)
    (S : List String) :
    remoteAddrs (handleRegister m g S).1 = remoteAddrs m ∪ {a | a ∈ S ∧ m.Load a = none} := by
  ext a
  simp only [remoteAddrs, handleRegister_fst, Load_registerRemote, Set.mem_setOf_eq,
    Set.mem_union]
  cases h : m.Load a with
  | none => by_cases hs : a ∈ S <;> simp [hs]
  | some v => cases v <;> simp

/-- No entry leaves the registry in `handleRegister`: a binding held before is
held afterwards, whatever its origin and whatever the Register list. -/
theorem handleRegister_keeps_every_entry {G : Type} (m : StrMap Bool) (g : StrMap G)
    (S : List String) (a : String) (v : Bool) (h : m.Load a = some v) :
    (handleRegister m g S).1.Load a = some v := by
  rw [handleRegister_fst, Load_registerRemote, h]

/-! ## Properties of the registry -/

/-- C1 (evaluation at the failing input): with the Remote-origin entry
`02:00:00:00:00:02` in the registry and the Register list
`["02:00:00:00:00:03"]`, the Remote-origin addresses after `handleRegister` are
not the listed addresses without the Local ones: `02:00:00:00:00:02` is still
held with Remote origin, because the stale entry is deleted from
`globalMACList` and not from `switchMACs`. -/
theorem handleRegister_remote_set_diverges :
    remoteAddrs (handleRegister (⟨[("02:00:00:00:00:02", false)]⟩ : StrMap Bool)
        (StrMap.empty : StrMap Unit) ["02:00:00:00:00:03"]).1
      ≠ {a | a ∈ ["02:00:00:00:00:03"] ∧
            (⟨[("02:00:00:00:00:02", false)]⟩ : StrMap Bool).Load a ≠ some true} := by
  intro h
  have hmem : "02:00:00:00:00:02" ∈
      remoteAddrs (handleRegister (⟨[("02:00:00:00:00:02", false)]⟩ : StrMap Bool)
        (StrMap.empty : StrMap Unit) ["02:00:00:00:00:03"]).1 := by
    show StrMap.Load _ _ = some false
    decide
  rw [h] at hmem
  exact absurd hmem.1 (by decide)

/-- C2 (evaluation at the failing input): with the Remote-origin entry
`02:00:00:00:00:02` and the Local-origin entry `02:00:00:00:00:01` in the
registry, `handleRegister` of the empty list leaves the registry as it was, the
Remote-origin entry included; the entry it deletes is the one of
`globalMACList`. -/
theorem handleRegister_empty_list_keeps_remote :
    handleRegister
        (⟨[("02:00:00:00:00:02", false), ("02:00:00:00:00:01", true)]⟩ : StrMap Bool)
        (⟨[("02:00:00:00:00:02", ())]⟩ : StrMap Unit) []
      = (⟨[("02:00:00:00:00:02", false), ("02:00:00:00:00:01", true)]⟩, ⟨[]⟩)
    ∧ (handleRegister
        (⟨[("02:00:00:00:00:02", false), ("02:00:00:00:00:01", true)]⟩ : StrMap Bool)
        (⟨[("02:00:00:00:00:02", ())]⟩ : StrMap Unit) []).1.Load "02:00:00:00:00:02"
      = some false := by
  constructor <;> decide

/-- C3: `handleRegister` keeps every Local-origin entry: an address held with
Local origin before is held with Local origin afterwards, for every registry,
every `globalMACList` and every Register list. -/
theorem handleRegister_keeps_local {G : Type} (switchMACs : StrMap Bool)
    (globalMACList : StrMap G) (registration : List String) (a : String)
    (h : switchMACs.Load a = some true) :
    (handleRegister switchMACs globalMACList registration).1.Load a = some true := by
  rw [handleRegister_fst, Load_registerRemote, h]

/-- C3 at a concrete registry: a Local-origin entry survives the empty list. -/
theorem handleRegister_keeps_local_witness :
    (⟨[("02:00:00:00:00:02", false), ("02:00:00:00:00:01", true)]⟩ : StrMap Bool).Load
        "02:00:00:00:00:01" = some true
    ∧ (handleRegister
        (⟨[("02:00:00:00:00:02", false), ("02:00:00:00:00:01", true)]⟩ : StrMap Bool)
        (StrMap.empty : StrMap Unit) []).1.Load "02:00:00:00:00:01" = some true :=
  ⟨by decide, handleRegister_keeps_local _ _ _ _ (by decide)⟩

/-- C4: `registerSwitch` is an insert-if-absent. When the sender address `A` is
absent, `N + 1` consecutive calls return `false` then `N` times `true`, the
first call stores `A` with Local origin and nothing else changes later: the
registry after the run is the registry after the first call. When `A` is
present with origin `v`, the call returns `true` and leaves the registry, and so
the origin `v` of `A`, unchanged. -/
theorem registerSwitch_insert_if_absent (switchMACs : StrMap Bool) (dot11 : Dot11) :
    (switchMACs.Load (HardwareAddr.String dot11.Address2) = none →
      ∀ N : Nat,
        (registerSwitchTimes switchMACs dot11 (N + 1)).2 = false :: List.replicate N true
        ∧ (registerSwitch switchMACs dot11).2 = false
        ∧ (registerSwitch switchMACs dot11).1.Load (HardwareAddr.String dot11.Address2)
            = some true
        ∧ (∀ k, k ≠ HardwareAddr.String dot11.Address2 →
            (registerSwitch switchMACs dot11).1.Load k = switchMACs.Load k)
        ∧ (registerSwitchTimes switchMACs dot11 (N + 1)).1
            = (registerSwitch switchMACs dot11).1)
    ∧ (∀ v : Bool, switchMACs.Load (HardwareAddr.String dot11.Address2) = some v →
        registerSwitch switchMACs dot11 = (switchMACs, true)
        ∧ (registerSwitch switchMACs dot11).1.Load (HardwareAddr.String dot11.Address2)
            = some v) := by
  refine ⟨fun h N => ?_, fun v h => ?_⟩
  · have h1 := registerSwitch_absent switchMACs dot11 h
    have h2 : (switchMACs.Store (HardwareAddr.String dot11.Address2) true).Load
        (HardwareAddr.String dot11.Address2) = some true := by
      simp [StrMap.Load_Store]
    have h3 := registerSwitchTimes_present _ dot11 true h2 N
    refine ⟨?_, ?_, ?_, ?_, ?_⟩
    · simp [registerSwitchTimes, h1, h3]
    · simp [h1]
    · simp [h1, h2]
    · intro k hk
      simp [h1, StrMap.Load_Store, hk]
    · simp [registerSwitchTimes, h1, h3]
  · have h1 := registerSwitch_present switchMACs dot11 v h
    exact ⟨h1, by rw [h1]; exact h⟩

/-- C4 at concrete inputs: three calls for `02:00:00:00:00:01` on the empty
registry return `false, true, true` and leave the single Local-origin entry; a
call for an address held with Remote origin returns `true` and keeps it Remote. -/
theorem registerSwitch_insert_if_absent_witness :
    registerSwitchTimes StrMap.empty ⟨[], [2, 0, 0, 0, 0, 1]⟩ 3
      = (⟨[("02:00:00:00:00:01", true)]⟩, [false, true, true])
    ∧ (registerSwitchTimes StrMap.empty ⟨[], [2, 0, 0, 0, 0, 1]⟩ 3).1
      = (registerSwitch StrMap.empty ⟨[], [2, 0, 0, 0, 0, 1]⟩).1
    ∧ registerSwitch ⟨[("02:00:00:00:00:01", false)]⟩ ⟨[], [2, 0, 0, 0, 0, 1]⟩
      = (⟨[("02:00:00:00:00:01", false)]⟩, true) :=
  ⟨by decide,
   ((registerSwitch_insert_if_absent StrMap.empty ⟨[], [2, 0, 0, 0, 0, 1]⟩).1
      (by decide) 2).2.2.2.2,
   ((registerSwitch_insert_if_absent ⟨[("02:00:00:00:00:01", false)]⟩
      ⟨[], [2, 0, 0, 0, 0, 1]⟩).2 false (by decide)).1⟩

/-! ## `freqToChan` -/

/-- C8: for every 16-bit frequency `f` of at least 2407, `freqToChan f` is the
floor quotient `(f - 2407) / 5`; `freqToChan 2412 = 1`, `freqToChan 2462 = 11`,
and `freqToChan (2407 + 5 * c) = c` for every channel `c` from 1 to 13. -/
theorem freqToChan_floor :
    (∀ f : Nat, 2407 ≤ f → f < 65536 → freqToChan f = (f - 2407) / 5)
    ∧ freqToChan 2412 = 1
    ∧ freqToChan 2462 = 11
    ∧ (∀ c : Nat, 1 ≤ c → c ≤ 13 → freqToChan (2407 + 5 * c) = c) := by
  refine ⟨fun f h1 h2 => ?_, by decide, by decide, fun c h1 h2 => ?_⟩
  · unfold freqToChan
    rw [Nat.mod_eq_of_lt h2]
    have e : f + 65536 - 2407 = (f - 2407) + 65536 := by omega
    rw [e, Nat.add_mod_right, Nat.mod_eq_of_lt (by omega)]
  · unfold freqToChan
    omega

/-- C8 at concrete inputs: 2437 MHz is channel 6, and channel 13 maps back from
2472 MHz. -/
theorem freqToChan_floor_witness :
    freqToChan 2437 = (2437 - 2407) / 5 ∧ freqToChan (2407 + 5 * 13) = 13 :=
  ⟨freqToChan_floor.1 2437 (by decide) (by decide),
   freqToChan_floor.2.2.2 13 (by decide) (by decide)⟩

/-! ## `channelHopper` -/

theorem channelHopper_running (abort : Nat → Bool) (n : Nat)
    (h : ∀ k, k < n → abort k = false) :
    channelHopper abort n = ⟨n % 11 + 1, false, (List.range n).map (fun k => k % 11 + 1)⟩ := by
  induction n with
  | zero => rfl
  | succ n ih =>
    have hn : abort n = false := h n (Nat.lt_succ_self n)
    have ih1 := ih (fun k hk => h k (Nat.lt_succ_of_lt hk))
    have hi : (if n % 11 + 1 + 1 > 11 then 1 else n % 11 + 1 + 1) = (n + 1) % 11 + 1 := by
      split <;> omega
    simp only [channelHopper, ih1, hopperStep, hn, List.range_succ, List.map_append,
      List.map_cons, List.map_nil, hi]
    simp

theorem hopperStep_returned (b : Bool) (h : HopperState) (hr : h.returned = true) :
    hopperStep b h = h := by
  simp [hopperStep, hr]

theorem channelHopper_after_abort (abort : Nat → Bool) (k : Nat) (hk : abort k = true)
    (d : Nat) :
    (channelHopper abort (k + 1 + d)).returned = true
    ∧ (channelHopper abort (k + 1 + d)).channels = (channelHopper abort k).channels := by
  induction d with
  | zero =>
    show (hopperStep (abort k) (channelHopper abort k)).returned = true ∧
      (hopperStep (abort k) (channelHopper abort k)).channels = (channelHopper abort k).channels
    by_cases hr : (channelHopper abort k).returned = true
    · rw [hopperStep_returned _ _ hr]; exact ⟨hr, rfl⟩
    · simp [hopperStep, hr, hk]
  | succ d ih =>
    show (hopperStep (abort (k + 1 + d)) (channelHopper abort (k + 1 + d))).returned = true ∧
      (hopperStep (abort (k + 1 + d)) (channelHopper abort (k + 1 + d))).channels
        = (channelHopper abort k).channels
    rw [hopperStep_returned _ _ ih.1]
    exact ih

theorem channelHopper_channels_range (abort : Nat → Bool) (n : Nat) :
    ∀ c ∈ (channelHopper abort n).channels, 1 ≤ c ∧ c ≤ 11 := by
  have inv : ∀ n, (1 ≤ (channelHopper abort n).i ∧ (channelHopper abort n).i ≤ 11) ∧
      ∀ c ∈ (channelHopper abort n).channels, 1 ≤ c ∧ c ≤ 11 := by
    intro n
    induction n with
    | zero => simp [channelHopper]
    | succ n ih =>
      show (1 ≤ (hopperStep (abort n) (channelHopper abort n)).i ∧
          (hopperStep (abort n) (channelHopper abort n)).i ≤ 11) ∧
        ∀ c ∈ (hopperStep (abort n) (channelHopper abort n)).channels, 1 ≤ c ∧ c ≤ 11
      generalize channelHopper abort n = h at ih
      obtain ⟨hi, hc⟩ := ih
      unfold hopperStep
      by_cases hr : h.returned = true
      · simp only [hr, if_true]; exact ⟨hi, hc⟩
      · by_cases ha : abort n = true
        · simp only [hr, ha, if_true, if_false, Bool.false_eq_true]; exact ⟨hi, hc⟩
        · simp only [hr, ha, if_false, Bool.false_eq_true]
          refine ⟨by split <;> omega, ?_⟩
          intro c hcm
          rcases List.mem_append.mp hcm with h1 | h1
          · exact hc c h1
          · have : c = h.i := by simpa using h1
            omega
  exact (inv n).2

/-- C10: `channelHopper` walks the channels 1, 2, ..., 11, 1, 2, ... While the
abort signal has not been observed in the iterations up to the `n`-th, the
`n`-th iteration sets channel `((n - 1) mod 11) + 1`; every channel set lies in
1..11; and once the signal is observed at the top of an iteration (number `k`,
counted from 0) no later iteration sets a channel. -/
theorem channelHopper_cyclic (abort : Nat → Bool) :
    (∀ n : Nat, 1 ≤ n → (∀ k, k < n → abort k = false) →
      (channelHopper abort n).channels
          = (channelHopper abort (n - 1)).channels ++ [(n - 1) % 11 + 1]
      ∧ (channelHopper abort n).channels = (List.range n).map (fun k => k % 11 + 1))
    ∧ (∀ n : Nat, ∀ c ∈ (channelHopper abort n).channels, 1 ≤ c ∧ c ≤ 11)
    ∧ (∀ k : Nat, abort k = true → ∀ n : Nat, k < n →
        (channelHopper abort n).channels = (channelHopper abort k).channels) := by
  refine ⟨fun n hn h => ?_, channelHopper_channels_range abort, fun k hk n hkn => ?_⟩
  · obtain ⟨m, rfl⟩ : ∃ m, n = m + 1 := ⟨n - 1, by omega⟩
    have h1 := channelHopper_running abort (m + 1) h
    have h0 := channelHopper_running abort m (fun k hk => h k (Nat.lt_succ_of_lt hk))
    rw [h1, Nat.add_sub_cancel, h0]
    simp [List.range_succ]
  · obtain ⟨d, rfl⟩ : ∃ d, n = k + 1 + d := ⟨n - (k + 1), by omega⟩
    exact (channelHopper_after_abort abort k hk d).2

/-- C10 at a concrete run: with the abort signal first observed at the top of
iteration 13 (counted from 0), the 12th iteration sets channel 1 again and the
channels set in twenty iterations are 1..11, 1, 2. -/
theorem channelHopper_cyclic_witness :
    (channelHopper (fun k => decide (k = 13)) 12).channels
      = (channelHopper (fun k => decide (k = 13)) 11).channels ++ [1]
    ∧ (channelHopper (fun k => decide (k = 13)) 20).channels
      = [1, 2, 3, 4, 5, 6, 7, 8, 9, 10, 11, 1, 2] :=
  ⟨((channelHopper_cyclic (fun k => decide (k = 13))).1 12 (by decide) (by decide)).1,
   by decide⟩

/-! ## The classification loop -/

theorem lockActions_append (a b : List Effect) :
    lockActions (a ++ b) = lockActions a ++ lockActions b := by
  induction a with
  | nil => rfl
  | cons e rest ih => cases e <;> simp [lockActions, ih]

theorem lockActions_lockAction (freq : Nat) : lockActions (lockAction freq) = lockAction freq :=
  rfl

/-- The registering block either performs no action and keeps `noHop`, or runs
with `noHop` false, sets it and performs the channel-lock action. -/
theorem registerAndLock_cases (s : ClientState) (d : Dot11) (freq : Nat) :
    ((registerAndLock s d freq).2 = [] ∧ (registerAndLock s d freq).1.noHop = s.noHop)
    ∨ (s.noHop = false ∧ (registerAndLock s d freq).1.noHop = true
        ∧ (registerAndLock s d freq).2 = lockAction freq) := by
  simp only [registerAndLock]
  cases h1 : (registerSwitch s.switchMACs d).2 <;> cases h2 : s.noHop <;>
    simp [lockAction]

theorem classify_lock_cases (s s1 : ClientState) (p : Packet) (es : List Effect)
    (h : classify s p = .ok (s1, es)) :
    (lockActions es = [] ∧ s1.noHop = s.noHop)
    ∨ (s.noHop = false ∧ s1.noHop = true
        ∧ ∃ freq, p.radioTap = some freq ∧ lockActions es = lockAction freq) := by
  have key : ∀ (d : Dot11) (freq : Nat), p.radioTap = some freq →
      (s1, es) = ((registerAndLock s d freq).1,
        (registerAndLock s d freq).2 ++ [Effect.forwardPacket p.data]) →
      (lockActions es = [] ∧ s1.noHop = s.noHop)
      ∨ (s.noHop = false ∧ s1.noHop = true
          ∧ ∃ freq, p.radioTap = some freq ∧ lockActions es = lockAction freq) := by
    intro d freq hf e
    have e1 : s1 = (registerAndLock s d freq).1 := congrArg Prod.fst e
    have e2 : es = (registerAndLock s d freq).2 ++ [Effect.forwardPacket p.data] :=
      congrArg Prod.snd e
    rcases registerAndLock_cases s d freq with ⟨ha, hb⟩ | ⟨ha, hb, hc⟩
    · left
      rw [e2, ha, e1]
      exact ⟨rfl, hb⟩
    · right
      refine ⟨ha, by rw [e1]; exact hb, freq, hf, ?_⟩
      rw [e2, hc, lockActions_append, lockActions_lockAction]
      simp [lockActions]
  have keep : ∀ es0 : List Effect, lockActions es0 = [] → (s1, es) = (s, es0) →
      (lockActions es = [] ∧ s1.noHop = s.noHop)
      ∨ (s.noHop = false ∧ s1.noHop = true
          ∧ ∃ freq, p.radioTap = some freq ∧ lockActions es = lockAction freq) := by
    intro es0 h0 e
    have e1 : s1 = s := congrArg Prod.fst e
    have e2 : es = es0 := congrArg Prod.snd e
    left
    rw [e1, e2]
    exact ⟨h0, rfl⟩
  unfold classify at h
  split at h
  · exact keep [] rfl (Except.ok.inj h).symm
  · rename_i freq hf
    split at h
    · exact keep [] rfl (Except.ok.inj h).symm
    · rename_i d hd
      split at h
      · exact keep [Effect.forwardPacket p.data] rfl (Except.ok.inj h).symm
      · split at h
        · split at h
          · exact key d freq hf (Except.ok.inj h).symm
          · exact keep [Effect.forwardPacket p.data] rfl (Except.ok.inj h).symm
        · unfold scanAction at h
          split at h
          · exact keep [] rfl (Except.ok.inj h).symm
          · split at h
            · exact absurd h (by simp)
            · split at h
              · split at h
                · exact absurd h (by simp)
                · split at h
                  · exact key d freq hf (Except.ok.inj h).symm
                  · exact keep [] rfl (Except.ok.inj h).symm
              · exact keep [] rfl (Except.ok.inj h).symm

theorem stopCount_lockActions (es : List Effect) :
    stopCount es = stopCount (lockActions es) := by
  induction es with
  | nil => rfl
  | cons e rest ih =>
    cases e <;> simp_all [stopCount, lockActions, List.count_cons]

theorem channelsSet_lockActions (es : List Effect) :
    channelsSet es = channelsSet (lockActions es) := by
  induction es with
  | nil => rfl
  | cons e rest ih =>
    cases e <;> simp_all [channelsSet, lockActions]

/-- Over a whole run the loop performs no lock action, or starts with `noHop`
false and performs the lock action once, for the frequency of one packet. -/
theorem clientLoop_lock_cases (ps : List Packet) (s : ClientState) :
    lockActions (clientLoop s ps).effects = []
    ∨ (s.noHop = false ∧ ∃ p ∈ ps, ∃ freq, p.radioTap = some freq
        ∧ lockActions (clientLoop s ps).effects = lockAction freq) := by
  induction ps generalizing s with
  | nil => left; rfl
  | cons p rest ih =>
    cases hc : classify s p with
    | error f => left; simp [clientLoop, hc, lockActions]
    | ok r =>
      obtain ⟨s1, es⟩ := r
      have he : (clientLoop s (p :: rest)).effects = es ++ (clientLoop s1 rest).effects := by
        simp [clientLoop, hc]
      rw [he, lockActions_append]
      rcases classify_lock_cases s s1 p es hc with ⟨h1, h2⟩ | ⟨h1, h2, freq, hf, h3⟩
      · rcases ih s1 with h4 | ⟨h4, q, hq, fq, hfq, h5⟩
        · left; rw [h1, h4]; rfl
        · right
          refine ⟨by rw [← h2]; exact h4, q, List.mem_cons_of_mem _ hq, fq, hfq, ?_⟩
          rw [h1, h5]; rfl
      · rcases ih s1 with h4 | ⟨h4, _⟩
        · right
          refine ⟨h1, p, List.mem_cons_self _ _, freq, hf, ?_⟩
          rw [h3, h4, List.append_nil]
        · rw [h2] at h4; exact absurd h4 (by simp)

/-- C5: over every finite sequence of packets, from every registry and with
hopping enabled or not, the actions of the loop on the hop loop and the radio
channel are none at all or a single channel-lock action (stop signal, close,
`changeChannel` with `freqToChan` of the frequency of one of the packets): at
most one stop signal is sent and at most one channel set. When `noHop` is true
at the start there is none. -/
theorem channel_lock_at_most_once (s : ClientState) (ps : List Packet) :
    (lockActions (clientLoop s ps).effects = []
      ∨ ∃ p ∈ ps, ∃ freq, p.radioTap = some freq
          ∧ lockActions (clientLoop s ps).effects = lockAction freq)
    ∧ stopCount (clientLoop s ps).effects ≤ 1
    ∧ (channelsSet (clientLoop s ps).effects).length ≤ 1
    ∧ (s.noHop = true →
        lockActions (clientLoop s ps).effects = []
        ∧ stopCount (clientLoop s ps).effects = 0
        ∧ channelsSet (clientLoop s ps).effects = []) := by
  have hc := clientLoop_lock_cases ps s
  rw [stopCount_lockActions, channelsSet_lockActions]
  refine ⟨?_, ?_, ?_, ?_⟩
  · rcases hc with h | ⟨_, q, hq, fq, hfq, h⟩
    · exact Or.inl h
    · exact Or.inr ⟨q, hq, fq, hfq, h⟩
  · rcases hc with h | ⟨_, _, _, fq, _, h⟩
    · rw [h]; decide
    · rw [h]; simp [stopCount, lockAction]
  · rcases hc with h | ⟨_, _, _, fq, _, h⟩
    · rw [h]; simp [channelsSet]
    · rw [h]; simp [channelsSet, lockAction]
  · intro hn
    rcases hc with h | ⟨h0, _⟩
    · rw [h]; exact ⟨rfl, rfl, rfl⟩
    · rw [hn] at h0; exact absurd h0 (by simp)

/-- C5 at concrete runs: two vendor action frames from two unregistered senders,
at 2422 MHz then at 2437 MHz. With hopping enabled the only lock is the one to
channel 3 of the first frame; with `noHop` set there is no lock action. -/
theorem channel_lock_at_most_once_witness :
    channelsSet (clientLoop ⟨StrMap.empty, false⟩
      [⟨some 2422, some ⟨[255, 255, 255, 255, 255, 255], [2, 0, 0, 0, 0, 1]⟩,
          some (ByteSlice.ofBytes [0x7f, 0x00, 0x22, 0xaa, 4]), [1]⟩,
       ⟨some 2437, some ⟨[255, 255, 255, 255, 255, 255], [2, 0, 0, 0, 0, 2]⟩,
          some (ByteSlice.ofBytes [0x7f, 0x00, 0x22, 0xaa, 4]), [2]⟩]).effects = [3]
    ∧ lockActions (clientLoop ⟨StrMap.empty, true⟩
      [⟨some 2422, some ⟨[255, 255, 255, 255, 255, 255], [2, 0, 0, 0, 0, 1]⟩,
          some (ByteSlice.ofBytes [0x7f, 0x00, 0x22, 0xaa, 4]), [1]⟩,
       ⟨some 2437, some ⟨[255, 255, 255, 255, 255, 255], [2, 0, 0, 0, 0, 2]⟩,
          some (ByteSlice.ofBytes [0x7f, 0x00, 0x22, 0xaa, 4]), [2]⟩]).effects = [] :=
  ⟨by decide, ((channel_lock_at_most_once ⟨StrMap.empty, true⟩ _).2.2.2 rfl).1⟩

/-- A payload that starts with the four bytes `7F 00 22 AA` passes the two
reads of the scan. -/
theorem vendor_payload_reads (c : ByteSlice)
    (hb : c.bytes.take 4 = [0x7f, 0x00, 0x22, 0xaa]) :
    c.index 0 = .ok 0x7f ∧ c.slice 1 4 = .ok [0x00, 0x22, 0xaa] := by
  obtain ⟨arr, len⟩ := c
  rcases arr with _ | ⟨a0, _ | ⟨a1, _ | ⟨a2, _ | ⟨a3, rest⟩⟩⟩⟩ <;>
    rcases len with _ | _ | _ | _ | n <;>
    simp [ByteSlice.bytes] at hb
  obtain ⟨h0, h1, h2, h3⟩ := hb
  subst h0 h1 h2 h3
  simp [ByteSlice.index, ByteSlice.slice, ByteSlice.cap]

/-- C6: a frame with RadioTap and Dot11 layers whose sender and receiver are
both absent from the registry and whose action payload starts with
`7F 00 22 AA`, classified while hopping is enabled (`noHop` false): the sender
is stored with Local origin and no other entry changes, `noHop` is set, the
channel is locked to `freqToChan` of the capture frequency (stop signal, close,
`changeChannel`), and the frame is forwarded exactly once, after the lock. -/
theorem vendor_action_registers_locks_forwards (s : ClientState) (p : Packet)
    (freq : Nat) (d : Dot11) (c : ByteSlice)
    (hr : p.radioTap = some freq) (hd : p.dot11 = some d) (ha : p.mgmtAction = some c)
    (h2 : s.switchMACs.Load (HardwareAddr.String d.Address2) = none)
    (h1 : s.switchMACs.Load (HardwareAddr.String d.Address1) = none)
    (hb : c.bytes.take 4 = [0x7f, 0x00, 0x22, 0xaa])
    (hop : s.noHop = false) :
    classify s p = .ok
        (⟨s.switchMACs.Store (HardwareAddr.String d.Address2) true, true⟩,
          [Effect.stopHopSend, Effect.stopHopClose, Effect.changeChannel (freqToChan freq),
            Effect.forwardPacket p.data])
    ∧ (s.switchMACs.Store (HardwareAddr.String d.Address2) true).Load
        (HardwareAddr.String d.Address2) = some true
    ∧ (∀ k, k ≠ HardwareAddr.String d.Address2 →
        (s.switchMACs.Store (HardwareAddr.String d.Address2) true).Load k
          = s.switchMACs.Load k)
    ∧ channelsSet [Effect.stopHopSend, Effect.stopHopClose,
        Effect.changeChannel (freqToChan freq), Effect.forwardPacket p.data]
          = [freqToChan freq]
    ∧ forwarded [Effect.stopHopSend, Effect.stopHopClose,
        Effect.changeChannel (freqToChan freq), Effect.forwardPacket p.data] = [p.data] := by
  obtain ⟨r0, r1⟩ := vendor_payload_reads c hb
  refine ⟨?_, by simp [StrMap.Load_Store], fun k hk => by simp [StrMap.Load_Store, hk],
    rfl, rfl⟩
  simp [classify, hr, hd, h2, h1, scanAction, ha, r0, r1, registerAndLock,
    registerSwitch_absent s.switchMACs d h2, hop]

/-- C6 at the scenario of the specification: a vendor action frame from the
unregistered address `02:00:00:00:00:01` captured at 2422 MHz, on the empty
registry with hopping enabled, leaves the entry `02:00:00:00:00:01` with Local
origin, locks to channel 3 and forwards the frame. -/
theorem vendor_action_registers_locks_forwards_witness :
    classify ⟨StrMap.empty, false⟩
        ⟨some 2422, some ⟨[255, 255, 255, 255, 255, 255], [2, 0, 0, 0, 0, 1]⟩,
          some (ByteSlice.ofBytes [0x7f, 0x00, 0x22, 0xaa, 4]), [208, 0, 7]⟩
      = .ok (⟨⟨[("02:00:00:00:00:01", true)]⟩, true⟩,
          [Effect.stopHopSend, Effect.stopHopClose, Effect.changeChannel 3,
            Effect.forwardPacket [208, 0, 7]]) :=
  (vendor_action_registers_locks_forwards ⟨StrMap.empty, false⟩
    ⟨some 2422, some ⟨[255, 255, 255, 255, 255, 255], [2, 0, 0, 0, 0, 1]⟩,
      some (ByteSlice.ofBytes [0x7f, 0x00, 0x22, 0xaa, 4]), [208, 0, 7]⟩
    2422 ⟨[255, 255, 255, 255, 255, 255], [2, 0, 0, 0, 0, 1]⟩
    (ByteSlice.ofBytes [0x7f, 0x00, 0x22, 0xaa, 4])
    rfl rfl rfl (by decide) (by decide) (by decide) rfl).1

/-- C7 (counterexample): the registry holds `02:00:00:00:00:01`; a frame sent to
that address by the unregistered `02:00:00:00:00:09` is forwarded, and the
registry afterwards also holds `02:00:00:00:00:09`: it is not the registry
before. -/
theorem known_receiver_frame_writes_registry :
    (StrMap.Load ⟨[("02:00:00:00:00:01", true)]⟩ "02:00:00:00:00:01" = some true)
    ∧ HardwareAddr.String [2, 0, 0, 0, 0, 1] = "02:00:00:00:00:01"
    ∧ classify ⟨⟨[("02:00:00:00:00:01", true)]⟩, true⟩
        ⟨some 2422, some ⟨[2, 0, 0, 0, 0, 1], [2, 0, 0, 0, 0, 9]⟩, none, [8, 1]⟩
      = .ok (⟨⟨[("02:00:00:00:00:09", true), ("02:00:00:00:00:01", true)]⟩, true⟩,
          [Effect.forwardPacket [8, 1]])
    ∧ (⟨[("02:00:00:00:00:09", true), ("02:00:00:00:00:01", true)]⟩ : StrMap Bool)
      ≠ ⟨[("02:00:00:00:00:01", true)]⟩ := by
  refine ⟨by decide, by decide, by decide, by decide⟩

/-- C7 (amended): when the registry holds an address `A` and a frame with
RadioTap and Dot11 layers has `A` as its sender or as its receiver, the frame
is forwarded exactly once. The registry and `noHop` are unchanged and nothing
else is done when the sender is in the registry or is empty. Otherwise (the
receiver is `A`, the sender is non-empty and not in the registry) the one
registry write is the store of the sender with Local origin. -/
theorem known_address_frame_forwarded (s : ClientState) (p : Packet) (freq : Nat)
    (d : Dot11) (A : String)
    (hr : p.radioTap = some freq) (hd : p.dot11 = some d)
    (hA : (s.switchMACs.Load A).isSome = true)
    (hAddr : HardwareAddr.String d.Address2 = A ∨ HardwareAddr.String d.Address1 = A) :
    ∃ s1 es, classify s p = .ok (s1, es)
      ∧ forwarded es = [p.data]
      ∧ (((s.switchMACs.Load (HardwareAddr.String d.Address2)).isSome = true
            ∨ d.Address2 = []) →
          s1 = s ∧ es = [Effect.forwardPacket p.data])
      ∧ (s.switchMACs.Load (HardwareAddr.String d.Address2) = none → d.Address2 ≠ [] →
          s1.switchMACs = s.switchMACs.Store (HardwareAddr.String d.Address2) true
          ∧ ∀ k, k ≠ HardwareAddr.String d.Address2 →
              s1.switchMACs.Load k = s.switchMACs.Load k) := by
  cases h2 : s.switchMACs.Load (HardwareAddr.String d.Address2) with
  | some v =>
    refine ⟨s, [Effect.forwardPacket p.data], by simp [classify, hr, hd, h2], rfl,
      fun _ => ⟨rfl, rfl⟩, fun h => by simp at h⟩
  | none =>
    have hA1 : HardwareAddr.String d.Address1 = A := by
      rcases hAddr with h | h
      · rw [h] at h2; rw [h2] at hA; simp at hA
      · exact h
    obtain ⟨v, hv⟩ := Option.isSome_iff_exists.mp hA
    rw [← hA1] at hv
    by_cases he : d.Address2 = []
    · have h2e : s.switchMACs.Load (HardwareAddr.String []) = none := he ▸ h2
      refine ⟨s, [Effect.forwardPacket p.data],
        by simp [classify, hr, hd, hv, he, h2e], rfl,
        fun _ => ⟨rfl, rfl⟩, fun _ h => absurd he h⟩
    · have hlen : d.Address2.length ≠ 0 := by
        intro h; exact he (List.length_eq_zero.mp h)
      have hcls : classify s p = .ok ((registerAndLock s d freq).1,
          (registerAndLock s d freq).2 ++ [Effect.forwardPacket p.data]) := by
        simp [classify, hr, hd, h2, hv, hlen]
      have hsw : (registerAndLock s d freq).1.switchMACs
          = s.switchMACs.Store (HardwareAddr.String d.Address2) true := by
        simp only [registerAndLock, registerSwitch_absent s.switchMACs d h2]
        cases s.noHop <;> simp
      have hfw : forwarded ((registerAndLock s d freq).2 ++ [Effect.forwardPacket p.data])
          = [p.data] := by
        simp only [registerAndLock, registerSwitch_absent s.switchMACs d h2]
        cases s.noHop <;> simp [forwarded]
      refine ⟨_, _, hcls, hfw, fun h => ?_, fun _ _ => ⟨hsw, fun k hk => ?_⟩⟩
      · rcases h with h | h
        · simp at h
        · exact absurd h he
      · rw [hsw]; simp [StrMap.Load_Store, hk]

/-- C7 (amended) at concrete inputs: a frame sent by the registered
`02:00:00:00:00:01` is forwarded and leaves the state as it was. -/
theorem known_address_frame_forwarded_witness :
    ∃ s1 es, classify ⟨⟨[("02:00:00:00:00:01", true)]⟩, false⟩
        ⟨some 2422, some ⟨[255, 255, 255, 255, 255, 255], [2, 0, 0, 0, 0, 1]⟩, none, [8, 1]⟩
        = .ok (s1, es)
      ∧ forwarded es = [[8, 1]]
      ∧ s1 = ⟨⟨[("02:00:00:00:00:01", true)]⟩, false⟩
      ∧ es = [Effect.forwardPacket [8, 1]] := by
  obtain ⟨s1, es, h1, h2, h3, _⟩ := known_address_frame_forwarded
    ⟨⟨[("02:00:00:00:00:01", true)]⟩, false⟩
    ⟨some 2422, some ⟨[255, 255, 255, 255, 255, 255], [2, 0, 0, 0, 0, 1]⟩, none, [8, 1]⟩
    2422 ⟨[255, 255, 255, 255, 255, 255], [2, 0, 0, 0, 0, 1]⟩ "02:00:00:00:00:01"
    rfl rfl (by decide) (Or.inl (by decide))
  exact ⟨s1, es, h1, h2, (h3 (Or.inl (by decide))).1, (h3 (Or.inl (by decide))).2⟩

/-- An iteration completes whenever the action payload, if there is one, is
non-empty and sits in a slice of capacity at least 4. -/
theorem classify_ok_of_readable_payload (s : ClientState) (p : Packet)
    (h : ∀ c, p.mgmtAction = some c → 0 < c.len ∧ 4 ≤ c.cap) :
    ∃ r, classify s p = .ok r := by
  unfold classify
  split
  · exact ⟨_, rfl⟩
  · split
    · exact ⟨_, rfl⟩
    · split
      · exact ⟨_, rfl⟩
      · split
        · split <;> exact ⟨_, rfl⟩
        · unfold scanAction
          cases ha : p.mgmtAction with
          | none => exact ⟨_, rfl⟩
          | some c =>
            obtain ⟨h0, h4⟩ := h c ha
            simp only [ByteSlice.index, h0, if_true, ByteSlice.slice, h4, and_true,
              show (1 : Nat) ≤ 4 by decide]
            split
            · split <;> exact ⟨_, rfl⟩
            · exact ⟨_, rfl⟩

/-- The registering block on a sender that is not in the registry. -/
theorem registerAndLock_absent (s : ClientState) (d : Dot11) (freq : Nat)
    (h : s.switchMACs.Load (HardwareAddr.String d.Address2) = none) :
    registerAndLock s d freq
      = (⟨s.switchMACs.Store (HardwareAddr.String d.Address2) true, true⟩,
          if s.noHop then [] else lockAction freq) := by
  obtain ⟨m, nh⟩ := s
  cases nh <;> simp [registerAndLock, registerSwitch_absent m d h, lockAction]

/-- Every completed iteration is a drop, a forward, or a register-and-forward. -/
theorem classify_outcome (s : ClientState) (p : Packet) (r : ClientState × List Effect)
    (h : classify s p = .ok r) :
    isForward s p r ∨ isDrop s r ∨ isRegisterForward s p r := by
  cases hr : p.radioTap with
  | none =>
    simp only [classify, hr] at h
    exact Or.inr (Or.inl (Except.ok.inj h).symm)
  | some freq =>
    cases hd : p.dot11 with
    | none =>
      simp only [classify, hr, hd] at h
      exact Or.inr (Or.inl (Except.ok.inj h).symm)
    | some d =>
      cases h2 : s.switchMACs.Load (HardwareAddr.String d.Address2) with
      | some v =>
        simp only [classify, hr, hd, h2] at h
        exact Or.inl (Except.ok.inj h).symm
      | none =>
        have hreg := registerAndLock_absent s d freq h2
        have regOK : ∀ r0, r0 = ((registerAndLock s d freq).1,
            (registerAndLock s d freq).2 ++ [Effect.forwardPacket p.data]) →
            isRegisterForward s p r0 := by
          intro r0 e
          simp only [isRegisterForward, hr, hd]
          exact ⟨h2, by rw [e, hreg]⟩
        cases h1 : s.switchMACs.Load (HardwareAddr.String d.Address1) with
        | some v =>
          simp only [classify, hr, hd, h2, h1] at h
          split at h
          · exact Or.inr (Or.inr (regOK r (Except.ok.inj h).symm))
          · exact Or.inl (Except.ok.inj h).symm
        | none =>
          simp only [classify, hr, hd, h2, h1, scanAction] at h
          split at h
          · exact Or.inr (Or.inl (Except.ok.inj h).symm)
          · split at h
            · exact absurd h (by simp)
            · split at h
              · split at h
                · exact absurd h (by simp)
                · split at h
                  · exact Or.inr (Or.inr (regOK r (Except.ok.inj h).symm))
                  · exact Or.inr (Or.inl (Except.ok.inj h).symm)
              · exact Or.inr (Or.inl (Except.ok.inj h).symm)

theorem not_isDrop_and_isForward (s : ClientState) (p : Packet)
    (r : ClientState × List Effect) (h1 : isDrop s r) (h2 : isForward s p r) : False := by
  unfold isDrop at h1
  unfold isForward at h2
  rw [h1] at h2
  simp at h2

theorem not_isDrop_and_isRegisterForward (s : ClientState) (p : Packet)
    (r : ClientState × List Effect) (h1 : isDrop s r) (h2 : isRegisterForward s p r) :
    False := by
  unfold isDrop at h1
  unfold isRegisterForward at h2
  split at h2
  · rw [h1] at h2
    have := congrArg Prod.snd h2.2
    simp at this
  · exact h2

theorem not_isForward_and_isRegisterForward (s : ClientState) (p : Packet)
    (r : ClientState × List Effect) (h1 : isForward s p r) (h2 : isRegisterForward s p r) :
    False := by
  unfold isForward at h1
  unfold isRegisterForward at h2
  split at h2
  · rename_i freq d _ _
    obtain ⟨habs, hr⟩ := h2
    rw [h1] at hr
    have e : s.switchMACs = s.switchMACs.Store (HardwareAddr.String d.Address2) true :=
      congrArg (fun x => x.1.switchMACs) hr
    rw [e, StrMap.Load_Store] at habs
    simp at habs
  · exact h2

/-- C9: classification is total on the packets of the capture. For every
registry and `noHop` flag and every packet the gopacket source delivers (with
or without RadioTap and Dot11 layers; an action payload of fewer than 4 bytes,
such as the single byte `7F`, included), the iteration completes without an
index or slice panic, and its result is exactly one of: forward, drop,
register-(maybe-lock)-and-forward. -/
theorem classify_total (s : ClientState) (p : Packet) (h : p.fromCapture) :
    ∃ r, classify s p = .ok r
      ∧ ((isForward s p r ∧ ¬ isDrop s r ∧ ¬ isRegisterForward s p r)
        ∨ (isDrop s r ∧ ¬ isForward s p r ∧ ¬ isRegisterForward s p r)
        ∨ (isRegisterForward s p r ∧ ¬ isForward s p r ∧ ¬ isDrop s r)) := by
  have hread : ∀ c, p.mgmtAction = some c → 0 < c.len ∧ 4 ≤ c.cap := by
    intro c hc
    unfold Packet.fromCapture at h
    rw [hc] at h
    exact ⟨h.1, by omega⟩
  obtain ⟨r, hr⟩ := classify_ok_of_readable_payload s p hread
  refine ⟨r, hr, ?_⟩
  rcases classify_outcome s p r hr with hf | hd | hg
  · exact Or.inl ⟨hf, fun hd => not_isDrop_and_isForward s p r hd hf,
      fun hg => not_isForward_and_isRegisterForward s p r hf hg⟩
  · exact Or.inr (Or.inl ⟨hd, fun hf => not_isDrop_and_isForward s p r hd hf,
      fun hg => not_isDrop_and_isRegisterForward s p r hd hg⟩)
  · exact Or.inr (Or.inr ⟨hg, fun hf => not_isForward_and_isRegisterForward s p r hf hg,
      fun hd => not_isDrop_and_isRegisterForward s p r hd hg⟩)

/-- C9 at a concrete packet: an action frame from the unregistered
`02:00:00:00:00:01` whose payload is the single byte `7F`, followed in the
capture buffer by the four bytes `12 34 56 78` of the frame check sequence.
The iteration completes, and its outcome is the drop. -/
theorem classify_total_witness :
    Packet.fromCapture
        ⟨some 2422, some ⟨[255, 255, 255, 255, 255, 255], [2, 0, 0, 0, 0, 1]⟩,
          some ⟨[0x7f, 0x12, 0x34, 0x56, 0x78], 1⟩, [208, 0, 7]⟩
    ∧ (∃ r, classify ⟨StrMap.empty, false⟩
          ⟨some 2422, some ⟨[255, 255, 255, 255, 255, 255], [2, 0, 0, 0, 0, 1]⟩,
            some ⟨[0x7f, 0x12, 0x34, 0x56, 0x78], 1⟩, [208, 0, 7]⟩ = .ok r
        ∧ ((isForward ⟨StrMap.empty, false⟩
              ⟨some 2422, some ⟨[255, 255, 255, 255, 255, 255], [2, 0, 0, 0, 0, 1]⟩,
                some ⟨[0x7f, 0x12, 0x34, 0x56, 0x78], 1⟩, [208, 0, 7]⟩ r
            ∧ ¬ isDrop ⟨StrMap.empty, false⟩ r
            ∧ ¬ isRegisterForward ⟨StrMap.empty, false⟩
              ⟨some 2422, some ⟨[255, 255, 255, 255, 255, 255], [2, 0, 0, 0, 0, 1]⟩,
                some ⟨[0x7f, 0x12, 0x34, 0x56, 0x78], 1⟩, [208, 0, 7]⟩ r)
          ∨ (isDrop ⟨StrMap.empty, false⟩ r
            ∧ ¬ isForward ⟨StrMap.empty, false⟩
              ⟨some 2422, some ⟨[255, 255, 255, 255, 255, 255], [2, 0, 0, 0, 0, 1]⟩,
                some ⟨[0x7f, 0x12, 0x34, 0x56, 0x78], 1⟩, [208, 0, 7]⟩ r
            ∧ ¬ isRegisterForward ⟨StrMap.empty, false⟩
              ⟨some 2422, some ⟨[255, 255, 255, 255, 255, 255], [2, 0, 0, 0, 0, 1]⟩,
                some ⟨[0x7f, 0x12, 0x34, 0x56, 0x78], 1⟩, [208, 0, 7]⟩ r)
          ∨ (isRegisterForward ⟨StrMap.empty, false⟩
              ⟨some 2422, some ⟨[255, 255, 255, 255, 255, 255], [2, 0, 0, 0, 0, 1]⟩,
                some ⟨[0x7f, 0x12, 0x34, 0x56, 0x78], 1⟩, [208, 0, 7]⟩ r
            ∧ ¬ isForward ⟨StrMap.empty, false⟩
              ⟨some 2422, some ⟨[255, 255, 255, 255, 255, 255], [2, 0, 0, 0, 0, 1]⟩,
                some ⟨[0x7f, 0x12, 0x34, 0x56, 0x78], 1⟩, [208, 0, 7]⟩ r
            ∧ ¬ isDrop ⟨StrMap.empty, false⟩ r)))
    ∧ classify ⟨StrMap.empty, false⟩
        ⟨some 2422, some ⟨[255, 255, 255, 255, 255, 255], [2, 0, 0, 0, 0, 1]⟩,
          some ⟨[0x7f, 0x12, 0x34, 0x56, 0x78], 1⟩, [208, 0, 7]⟩
      = .ok (⟨StrMap.empty, false⟩, []) :=
  ⟨by decide, classify_total _ _ (by decide), by decide⟩

/-- With a one-byte payload `7F` the slice `action.Contents[1:4]` holds the
three bytes that follow the payload in the capture buffer; when those are
`00 22 AA` the sender is registered, the channel locked and the frame
forwarded. -/
theorem short_payload_compares_following_bytes :
    classify ⟨StrMap.empty, false⟩
        ⟨some 2422, some ⟨[255, 255, 255, 255, 255, 255], [2, 0, 0, 0, 0, 1]⟩,
          some ⟨[0x7f, 0x00, 0x22, 0xaa, 0x01], 1⟩, [208, 0, 7]⟩
      = .ok (⟨⟨[("02:00:00:00:00:01", true)]⟩, true⟩,
          [Effect.stopHopSend, Effect.stopHopClose, Effect.changeChannel 3,
            Effect.forwardPacket [208, 0, 7]]) := by
  decide

end SwitchBridge
